import Mathlib

/-!
Shallow embedding of the download engine of `copymanga-downloader`
(`src-tauri/src/download_manager.rs` and `src-tauri/src/utils.rs`).

External collaborators (the HTTP client, the `image` codec crate, the
`strfmt` templating crate, the OS filesystem and the random number
generator) are modelled as explicit parameters: each fallible external
call is an `Except`/`Bool` outcome supplied in an environment record, so
the control flow of the Rust functions can be translated branch by
branch.  Machine counters (`AtomicU32`/`AtomicU64`) are modelled as
`Nat`: the counts involved (images per chapter) are far below `2^32`,
and the code only ever adds small increments.
-/

namespace CopyManga

/-- `DownloadTaskState` from `download_manager.rs`. -/
inductive DownloadTaskState where
  | Pending
  | Downloading
  | Paused
  | Cancelled
  | Completed
  | Failed
deriving DecidableEq, Repr

/-- The subset of `image::ImageFormat` variants relevant to this program
(the crate has more; they all fall in the `_` arm of `save_img`). -/
inductive ImageFormat where
  | Png
  | Jpeg
  | Gif
  | WebP
  | Bmp
  | Tiff
  | Avif
deriving DecidableEq, Repr

/-- A directory's contents: an association list from file name to file
bytes (bytes abstracted as `List Nat`). -/
abbrev Files := List (String × List Nat)

/-- Whether a file of the given name exists in the directory. -/
def fileExists (fs : Files) (name : String) : Bool :=
  fs.any (fun f => f.1 = name)

/-- `std::fs::write`: create or overwrite the named file. -/
def writeFile (fs : Files) (name : String) (data : List Nat) : Files :=
  (name, data) :: fs.filter (fun f => f.1 ≠ name)

/-- Abstract decoded image (`image::DynamicImage`). -/
structure DecodedImg where
  val : Nat
deriving DecidableEq, Repr

/-- Abstract RGBA8 image buffer. -/
structure Rgba8Img where
  val : Nat
deriving DecidableEq, Repr

/-- Abstract RGB8 image buffer. -/
structure Rgb8Img where
  val : Nat
deriving DecidableEq, Repr

/-- The operations `save_img` consumes from the external `image` crate:
decoding (`load_from_memory`), the two colour conversions, and the two
encoders (`write_to`).  All fallible ones return `Except`. -/
structure ImgCodec where
  decode : List Nat → Except String DecodedImg
  toRgba8 : DecodedImg → Rgba8Img
  toRgb8 : DecodedImg → Rgb8Img
  encodeWebP : Rgba8Img → Except String (List Nat)
  encodeJpeg : Rgb8Img → Except String (List Nat)

/-- `save_img` from `download_manager.rs` (lines 794-825).  The pair
returned is (the function's `anyhow::Result<()>`, the directory contents
after the call); an error leaves the directory exactly as the code
does, since `std::fs::write` is the only filesystem effect and each
early `return Err` precedes it.  `writeOk` is the OS outcome of
`std::fs::write`. -/
def save_img (codec : ImgCodec) (savePath : String) (targetFormat srcFormat : ImageFormat)
    (srcData : List Nat) (writeOk : Bool) (fs : Files) : Except String Unit × Files :=
  if targetFormat = srcFormat then
    if writeOk then (Except.ok (), writeFile fs savePath srcData)
    else (Except.error "write failed", fs)
  else
    match codec.decode srcData with
    | Except.error e => (Except.error e, fs)
    | Except.ok img =>
      match targetFormat with
      | ImageFormat.WebP =>
        match codec.encodeWebP (codec.toRgba8 img) with
        | Except.error e => (Except.error e, fs)
        | Except.ok converted =>
          if writeOk then (Except.ok (), writeFile fs savePath converted)
          else (Except.error "write failed", fs)
      | ImageFormat.Jpeg =>
        match codec.encodeJpeg (codec.toRgb8 img) with
        | Except.error e => (Except.error e, fs)
        | Except.ok converted =>
          if writeOk then (Except.ok (), writeFile fs savePath converted)
          else (Except.error "write failed", fs)
      | _ => (Except.error "unsupported target format", fs)

/-- `utils::filename_filter`'s per-character replacement table. -/
def filterChar (c : Char) : Char :=
  if c = '\\' then ' '
  else if c = '/' then ' '
  else if c = ':' then '：'
  else if c = '*' then '⭐'
  else if c = '?' then '？'
  else if c = '"' then '\''
  else if c = '<' then '《'
  else if c = '>' then '》'
  else if c = '|' then '丨'
  else c

/-- Model of `str::trim`: drop whitespace from both ends of the
character list. -/
def rustTrim (cs : List Char) : List Char :=
  ((cs.dropWhile Char.isWhitespace).reverse.dropWhile Char.isWhitespace).reverse

/-- `utils::filename_filter` (utils.rs lines 13-29): map each character
through the replacement table, then trim surrounding whitespace. -/
def filename_filter (s : String) : String :=
  String.mk (rustTrim (s.data.map filterChar))

/-- Left-pad a decimal string with zeros up to the given width
(the behaviour of Rust's `{:0w}` on the digits of a nonnegative
number). -/
def zeroPad (w : Nat) (s : String) : String :=
  if s.length < w then String.mk (List.replicate (w - s.length) '0') ++ s
  else s

/-- Rust `format!("{:03}", n)` for an `i64` value. -/
def rustFormat03 (n : Int) : String :=
  if n < 0 then "-" ++ zeroPad 2 (Nat.repr (-n).toNat)
  else zeroPad 3 (Nat.repr n.toNat)

/-- The file name `download_img` saves page `index` under:
`format!("{:03}.{extension}", index + 1)`. -/
def imgSavePath (index : Int) (extension : String) : String :=
  rustFormat03 (index + 1) ++ "." ++ extension

/-- The external outcomes one `DownloadImgTask::download_img` call can
observe: the HTTP fetch result (bytes and the detected source format)
and the OS outcome of the final `std::fs::write`. -/
structure ImgEnv where
  fetch : Except String (List Nat × ImageFormat)
  writeOk : Bool

/-- The mutable context `download_img` touches: the staging directory's
contents, the parent task's `downloaded_img_count`, the manager's byte
counter, plus an instrumentation count of network fetches actually
issued (used to state that the already-exists path performs none). -/
structure ImgTaskState where
  files : Files
  downloaded : Nat
  bytes : Nat
  fetchCount : Nat
deriving DecidableEq, Repr

/-- `DownloadImgTask::download_img` (download_manager.rs lines 663-731).
Mirrors the body's control flow: skip when the target file exists
(counter incremented, no fetch); on fetch failure return with nothing
changed; otherwise run `save_img`, and only on its success add the byte
count and increment the image counter.  All failures are absorbed: the
function always returns an `ImgTaskState`, never an error. -/
def download_img (codec : ImgCodec) (cfgExt : String) (targetFormat : ImageFormat)
    (env : ImgEnv) (index : Int) (st : ImgTaskState) : ImgTaskState :=
  let savePath := imgSavePath index cfgExt
  if fileExists st.files savePath then
    { st with downloaded := st.downloaded + 1 }
  else
    match env.fetch with
    | Except.error _ => { st with fetchCount := st.fetchCount + 1 }
    | Except.ok (imgData, imgFormat) =>
      match save_img codec savePath targetFormat imgFormat imgData env.writeOk st.files with
      | (Except.error _, files') =>
        { st with fetchCount := st.fetchCount + 1, files := files' }
      | (Except.ok _, files') =>
        { st with
          fetchCount := st.fetchCount + 1
          files := files'
          bytes := st.bytes + imgData.length
          downloaded := st.downloaded + 1 }

/-- Run the chapter's image tasks over the (url, index) pairs: the
per-image environments are supplied positionally by `imgEnv`, `k` being
the position of the first pair.  The concurrent `JoinSet` is linearized:
each task touches a distinct file and its own increments, so any
interleaving is equivalent to this sequential fold. -/
def runImgTasks (codec : ImgCodec) (cfgExt : String) (targetFormat : ImageFormat)
    (imgEnv : Nat → ImgEnv) : List (String × Int) → Nat → ImgTaskState → ImgTaskState
  | [], _, st => st
  | p :: rest, k, st =>
    runImgTasks codec cfgExt targetFormat imgEnv rest (k + 1)
      (download_img codec cfgExt targetFormat (imgEnv k) p.2 st)

/-! ### Chapter-metadata fetch retry (`get_chapter_with_retry`) -/

/-- One outcome of `copy_client.get_chapter`, as matched by
`get_chapter_with_retry` (download_manager.rs lines 386-410).
`otherErr` carries the value `rand::random::<u64>()` produced for that
attempt's backoff. -/
inductive ClientOutcome (α : Type) where
  | ok (data : α)
  | anyhowErr
  | riskControlRegister
  | otherErr (randVal : Nat)

/-- Which error class `get_chapter_with_retry` surfaced. -/
inductive RetryErr where
  | anyhow
  | other
deriving DecidableEq, Repr

/-- Observable side effects of the retry loop: countdown events
(chapter id, `retry_after`) and sleeps, in order. -/
inductive RetryLogItem where
  | riskEvent (chapterUuid : String) (retryAfter : Nat)
  | sleepMs (ms : Nat)
deriving DecidableEq, Repr

/-- The backoff wait for a non-risk-control retryable error:
`1000 + rand::random::<u64>() % 4000` milliseconds. -/
def transientWaitMs (randVal : Nat) : Nat := 1000 + randVal % 4000

/-- The risk-control cooldown: `for i in 1..=60 { emit retry_after = 60 - i; sleep 1s }`. -/
def riskCountdownLog (chapterUuid : String) : List RetryLogItem :=
  ((List.range 60).map
    (fun j => [RetryLogItem.riskEvent chapterUuid (60 - (j + 1)), RetryLogItem.sleepMs 1000])).flatten

/-- `DownloadTask::get_chapter_with_retry` (download_manager.rs lines
379-412), driven by the list of successive client outcomes; the list is
the only source of unboundedness, so the recursion is structural on it
(`none` marks the model artifact of running out of supplied outcomes).
Returns the loop's result and the emitted event/sleep log. -/
def get_chapter_with_retry {α : Type} (chapterUuid : String) :
    List (ClientOutcome α) → Nat → Option (Except RetryErr α) × List RetryLogItem
  | [], _ => (none, [])
  | ClientOutcome.ok d :: _, _ => (some (Except.ok d), [])
  | ClientOutcome.anyhowErr :: _, _ => (some (Except.error RetryErr.anyhow), [])
  | ClientOutcome.riskControlRegister :: rest, retryCount =>
    let r := get_chapter_with_retry chapterUuid rest retryCount
    (r.1, riskCountdownLog chapterUuid ++ r.2)
  | ClientOutcome.otherErr randVal :: rest, retryCount =>
    if retryCount < 5 then
      let r := get_chapter_with_retry chapterUuid rest (retryCount + 1)
      (r.1, RetryLogItem.sleepMs (transientWaitMs randVal) :: r.2)
    else
      (some (Except.error RetryErr.other), [RetryLogItem.sleepMs (transientWaitMs randVal)])

/-! ### Task registry (`DownloadManager::create_download_task`) -/

/-- The slice of `ChapterInfo` the registry logic reads. -/
structure ChapterStub where
  chapter_uuid : String
deriving DecidableEq, Repr

/-- The slice of `Comic` the registry logic reads: `comic.groups`, a map
from group name to chapter list. -/
structure ComicStub where
  groups : List (String × List ChapterStub)
deriving DecidableEq, Repr

/-- The registry `download_tasks`, each task represented by the state
its `state_sender` currently holds. -/
abbrev Registry := List (String × DownloadTaskState)

/-- `tasks.get(chapter_uuid)` followed by reading the task's state. -/
def lookupTask (reg : Registry) (uuid : String) : Option DownloadTaskState :=
  (reg.find? (fun e => e.1 = uuid)).map (fun e => e.2)

/-- `tasks.remove(chapter_uuid)`. -/
def removeTask (reg : Registry) (uuid : String) : Registry :=
  reg.filter (fun e => e.1 ≠ uuid)

/-- The duplicate-rejection predicate: `matches!(state, Pending | Downloading | Paused)`. -/
def isActiveState (st : DownloadTaskState) : Bool :=
  st = DownloadTaskState.Pending ∨ st = DownloadTaskState.Downloading ∨
    st = DownloadTaskState.Paused

/-- Whether the registry currently holds an active entry for the id. -/
def hasActiveEntry (reg : Registry) (uuid : String) : Bool :=
  match lookupTask reg uuid with
  | some st => isActiveState st
  | none => false

/-- `chapter_uuid` occurs in some group of the comic (the `find` in
`DownloadTask::new`, download_manager.rs lines 167-174). -/
def comicHasChapter (comic : ComicStub) (uuid : String) : Bool :=
  (comic.groups.flatMap (fun g => g.2)).any (fun ci => ci.chapter_uuid = uuid)

/-- `DownloadTask::new` (download_manager.rs lines 159-190):
`update_download_dir_fields_by_fmt` first (its OS/templating outcome is
the `updateDirOk` parameter), then the chapter lookup; either failure is
an error.  Success yields a task in state `Pending` with zeroed
counters, represented here by its registry entry. -/
def DownloadTask.new (updateDirOk : Bool) (comic : ComicStub) (uuid : String) :
    Except String DownloadTaskState :=
  if updateDirOk then
    if comicHasChapter comic uuid then Except.ok DownloadTaskState.Pending
    else Except.error "chapter not found in comic"
  else Except.error "update download dir failed"

/-- Result of one `create_download_task` call: whether it returned
`Ok`, the registry afterwards, and whether a driver was spawned. -/
structure CreateOutcome where
  ok : Bool
  reg : Registry
  spawned : Bool
deriving DecidableEq, Repr

/-- `DownloadManager::create_download_task` (download_manager.rs lines
101-117).  Note the code's order: the duplicate check, then
`tasks.remove`, then `DownloadTask::new` (so a terminal entry is gone
even if construction fails), then spawn, then insert. -/
def create_download_task (updateDirOk : Bool) (reg : Registry) (comic : ComicStub)
    (uuid : String) : CreateOutcome :=
  if hasActiveEntry reg uuid then
    CreateOutcome.mk false reg false
  else
    let reg1 := removeTask reg uuid
    match DownloadTask.new updateDirOk comic uuid with
    | Except.error _ => CreateOutcome.mk false reg1 false
    | Except.ok st => CreateOutcome.mk true (reg1 ++ [(uuid, st)]) true

/-! ### Chapter task body (`download_chapter` and the commit) -/

/-- The chapter-level filesystem slice: the final chapter directory and
the temp staging directory, `none` meaning the directory is absent. -/
structure ChapterFS where
  finalDir : Option Files
  tempDir : Option Files
deriving DecidableEq, Repr

/-- The chapter task's mutable context. -/
structure ChapterState where
  state : DownloadTaskState
  downloaded : Nat
  total : Nat
  fs : ChapterFS
deriving DecidableEq, Repr

/-- External outcomes one `download_chapter` run observes.  `pairs` is
the resolved outcome of `get_url_and_index_pairs` (the retry protocol
of `get_chapter_with_retry` is modelled separately); the `Bool` fields
are the OS outcomes of the corresponding `std::fs` calls. -/
structure ChapterEnv where
  saveComicMetaOk : Bool
  pairs : Except String (List (String × Int))
  tempDirOk : Bool
  hasChapterDir : Bool
  removeOk : Bool
  renameOk : Bool
  saveChapterMetaOk : Bool
  cfgExt : String
  targetFormat : ImageFormat
  codec : ImgCodec
  imgEnv : Nat → ImgEnv

/-- Model of `Path::extension` for the file names this program
produces: the part after the last `.` when one exists. -/
def fileExt (name : String) : Option String :=
  match name.splitOn "." with
  | [] => none
  | [_] => none
  | parts => parts.getLast?

/-- `clean_temp_download_dir` (download_manager.rs lines 415-458): keep
exactly the files whose extension equals the configured one. -/
def clean_temp_download_dir (cfgExt : String) (files : Files) : Files :=
  files.filter (fun f => fileExt f.1 = some cfgExt)

/-- `rename_temp_download_dir` (download_manager.rs lines 460-479):
error if `chapter_download_dir` is `None`; remove the final directory
recursively if it exists (OS outcome `removeOk`); then rename the temp
directory onto the final path (OS outcome `renameOk`).  The pair is
(the `anyhow::Result<()>`, the filesystem afterwards), so a rename
failure after a successful removal leaves the final directory gone. -/
def rename_temp_download_dir (hasChapterDir removeOk renameOk : Bool)
    (fs : ChapterFS) : Except String Unit × ChapterFS :=
  if hasChapterDir then
    match fs.finalDir with
    | some _ =>
      if removeOk then
        let fs1 := ChapterFS.mk none fs.tempDir
        if renameOk then (Except.ok (), ChapterFS.mk fs1.tempDir none)
        else (Except.error "rename failed", fs1)
      else (Except.error "remove dir failed", fs)
    | none =>
      if renameOk then (Except.ok (), ChapterFS.mk fs.tempDir none)
      else (Except.error "rename failed", fs)
  else (Except.error "chapter download dir is None", fs)

/-- Transition to `Failed` (the `set_state(Failed); emit; return` idiom). -/
def failChapter (st : ChapterState) : ChapterState :=
  { st with state := DownloadTaskState.Failed }

/-- The image fan-out stage of `download_chapter`: create the temp
directory (`create_dir_all` keeps existing contents), prune stale
files, run all image tasks, and fold their effects back into the
chapter state. -/
def imgPhase (env : ChapterEnv) (ps : List (String × Int)) (st : ChapterState) : ChapterState :=
  let tempFiles := clean_temp_download_dir env.cfgExt ((st.fs.tempDir).getD [])
  let ist := runImgTasks env.codec env.cfgExt env.targetFormat env.imgEnv ps 0
    (ImgTaskState.mk tempFiles st.downloaded 0 0)
  { st with
    downloaded := ist.downloaded
    fs := ChapterFS.mk st.fs.finalDir (some ist.files) }

/-- `DownloadTask::download_chapter` (download_manager.rs lines
222-298), branch by branch: comic-metadata save, page-list resolution,
`total_img_count` recording, temp-directory creation and pruning, image
fan-out, the completeness check, the commit, and the chapter-metadata
save whose failure is only logged before the task is `Completed`. -/
def download_chapter (env : ChapterEnv) (st : ChapterState) : ChapterState :=
  if env.saveComicMetaOk then
    match env.pairs with
    | Except.error _ => failChapter st
    | Except.ok ps =>
      let st1 := { st with total := st.total + ps.length }
      if env.tempDirOk then
        let st2 := imgPhase env ps st1
        if st2.downloaded ≠ st2.total then failChapter st2
        else
          match rename_temp_download_dir env.hasChapterDir env.removeOk env.renameOk st2.fs with
          | (Except.error _, fs') => failChapter { st2 with fs := fs' }
          | (Except.ok _, fs') =>
            { st2 with fs := fs', state := DownloadTaskState.Completed }
      else failChapter st1
  else failChapter st

/-! ### Download-directory naming (`get_comic_download_dir_by_fmt`,
`get_chapter_download_dir_by_fmt`) -/

/-- Model of Rust `str::split('/')`: split the character list at
every separator, keeping empty pieces (so `""` yields one empty piece
and a trailing separator yields a trailing empty piece), as the
iterator the code collects does. -/
def splitOnChar (sep : Char) : List Char → List (List Char)
  | [] => [[]]
  | c :: rest =>
    if c = sep then [] :: splitOnChar sep rest
    else
      match splitOnChar sep rest with
      | [] => [[c]]
      | hd :: tl => (c :: hd) :: tl

/-- The shared segment loop of both directory builders
(download_manager.rs lines 952-959 and 1016-1023): format each
template part (`strfmt`, the external templating call, is the `fmtFn`
parameter with the variable map already applied; its failure aborts the
whole computation), pass it through `filename_filter`, and keep it only
if nonempty. -/
def format_dir_names (fmtFn : String → Except String String) :
    List String → Except String (List String)
  | [] => Except.ok []
  | p :: ps =>
    match fmtFn p with
    | Except.error e => Except.error e
    | Except.ok s =>
      let dirName := filename_filter s
      match format_dir_names fmtFn ps with
      | Except.error e => Except.error e
      | Except.ok rest =>
        Except.ok (if dirName = "" then rest else dirName :: rest)

/-- `Comic::get_comic_download_dir_by_fmt` (download_manager.rs lines
919-967): split `comic_dir_fmt` on `/`, build the segment list, and
join it onto the configured download directory (paths modelled as
segment lists). -/
def get_comic_download_dir_by_fmt (downloadDir : List String) (comicDirFmt : String)
    (fmtFn : String → Except String String) : Except String (List String) :=
  match format_dir_names fmtFn ((splitOnChar '/' comicDirFmt.data).map String.mk) with
  | Except.error e => Except.error e
  | Except.ok dirNames => Except.ok (downloadDir ++ dirNames)

/-- `ChapterInfo::get_chapter_download_dir_by_fmt` (download_manager.rs
lines 984-1031): same pipeline rooted at the comic's directory.
`chapterDirFmt` is the template after `preprocess_order_placeholder`
(a string rewrite of the `{order}` placeholder performed upstream; it
changes the template text, not the per-segment filtering below). -/
def get_chapter_download_dir_by_fmt (comicDownloadDir : List String) (chapterDirFmt : String)
    (fmtFn : String → Except String String) : Except String (List String) :=
  match format_dir_names fmtFn ((splitOnChar '/' chapterDirFmt.data).map String.mk) with
  | Except.error e => Except.error e
  | Except.ok dirNames => Except.ok (comicDownloadDir ++ dirNames)

/-- The characters `filename_filter` eliminates. -/
def bannedChars : List Char := ['\\', '/', ':', '*', '?', '"', '<', '>', '|']

/-! ### Concrete instantiations used to evaluate the model -/

/-- A concrete codec: decoding always succeeds and the encoders are
injective enough to distinguish outputs. -/
def trivialCodec : ImgCodec where
  decode := fun data => Except.ok (DecodedImg.mk data.length)
  toRgba8 := fun i => Rgba8Img.mk i.val
  toRgb8 := fun i => Rgb8Img.mk i.val
  encodeWebP := fun i => Except.ok [i.val]
  encodeJpeg := fun i => Except.ok [i.val]

/-- Image environments where every fetch fails. -/
def imgEnvAllFail : Nat → ImgEnv := fun _ => ImgEnv.mk (Except.error "network error") true

/-- Image environments where every fetch succeeds with a one-byte WebP
image and the write succeeds. -/
def imgEnvAllOk : Nat → ImgEnv := fun _ => ImgEnv.mk (Except.ok ([5], ImageFormat.WebP)) true

/-- A chapter environment with one page whose fetch fails. -/
def envOneFailingImg : ChapterEnv where
  saveComicMetaOk := true
  pairs := Except.ok [("u", 0)]
  tempDirOk := true
  hasChapterDir := true
  removeOk := true
  renameOk := true
  saveChapterMetaOk := true
  cfgExt := "webp"
  targetFormat := ImageFormat.WebP
  codec := trivialCodec
  imgEnv := imgEnvAllFail

/-- A chapter environment with one page that downloads successfully. -/
def envOneOkImg : ChapterEnv where
  saveComicMetaOk := true
  pairs := Except.ok [("u", 0)]
  tempDirOk := true
  hasChapterDir := true
  removeOk := true
  renameOk := true
  saveChapterMetaOk := true
  cfgExt := "webp"
  targetFormat := ImageFormat.WebP
  codec := trivialCodec
  imgEnv := imgEnvAllOk

/-- A chapter environment whose resolved page list is empty and whose
filesystem operations all succeed. -/
def envNoPages : ChapterEnv where
  saveComicMetaOk := true
  pairs := Except.ok []
  tempDirOk := true
  hasChapterDir := true
  removeOk := true
  renameOk := true
  saveChapterMetaOk := true
  cfgExt := "webp"
  targetFormat := ImageFormat.WebP
  codec := trivialCodec
  imgEnv := imgEnvAllOk

/-- A freshly started chapter task: state `Downloading`, zero counters,
no final or staging directory yet. -/
def stZero : ChapterState :=
  ChapterState.mk DownloadTaskState.Downloading 0 0 (ChapterFS.mk none none)

/-- A comic with a single group holding the single chapter `"a"`. -/
def comicA : ComicStub := ComicStub.mk [("g", [ChapterStub.mk "a"])]

/-- A templating function that succeeds with the template itself. -/
def idFmtFn : String → Except String String := fun s => Except.ok s

/-! ## Theorems -/

theorem imgPhase_total (env : ChapterEnv) (ps : List (String × Int)) (st : ChapterState) :
    (imgPhase env ps st).total = st.total := rfl

theorem imgPhase_state (env : ChapterEnv) (ps : List (String × Int)) (st : ChapterState) :
    (imgPhase env ps st).state = st.state := rfl

theorem imgPhase_finalDir (env : ChapterEnv) (ps : List (String × Int)) (st : ChapterState) :
    (imgPhase env ps st).fs.finalDir = st.fs.finalDir := rfl

theorem download_chapter_meta_irrelevant (env : ChapterEnv) (st : ChapterState) (b : Bool) :
    download_chapter { env with saveChapterMetaOk := b } st = download_chapter env st := rfl

/-- C4: a risk-control (registration-required) error from the
chapter-metadata fetch makes the retry loop emit exactly 60 countdown
events carrying the chapter id with `retry_after` descending from 59 to
0, each followed by a one-second sleep, before retrying; and for any
number `n` of consecutive risk-control errors the loop still retries
and reaches the eventual success — there is no ceiling on risk-control
retries. -/
theorem c4_risk_control_retry {α : Type} (uuid : String) (d : α) :
    (∀ n : Nat,
      get_chapter_with_retry uuid
          (List.replicate n (ClientOutcome.riskControlRegister (α := α)) ++ [ClientOutcome.ok d]) 0
        = (some (Except.ok d), (List.replicate n (riskCountdownLog uuid)).flatten)) ∧
    riskCountdownLog uuid =
      ((List.range 60).map (fun j =>
        [RetryLogItem.riskEvent uuid (59 - j), RetryLogItem.sleepMs 1000])).flatten := by
  constructor
  · intro n
    induction n with
    | zero => simp [get_chapter_with_retry]
    | succ n ih =>
      simp only [List.replicate_succ, List.cons_append, get_chapter_with_retry,
        List.flatten_cons, List.append_eq]
      rw [ih]
  · have hfun : (fun j : Nat =>
        [RetryLogItem.riskEvent uuid (60 - (j + 1)), RetryLogItem.sleepMs 1000])
      = (fun j : Nat => [RetryLogItem.riskEvent uuid (59 - j), RetryLogItem.sleepMs 1000]) := by
      funext j
      have h : 60 - (j + 1) = 59 - j := by omega
      rw [h]
    unfold riskCountdownLog
    rw [hfun]

/-- C5: a generic non-retryable error from the chapter-metadata fetch
is returned immediately with no retry and no wait; any other transient
error causes a randomized wait of `1000 + rand % 4000` milliseconds
(always in the range 1000 to 4999) followed by a retry, at most 5
additional attempts beyond the first, after which the last error is
surfaced; five or fewer transient failures before a success still
succeed. -/
theorem c5_transient_retry {α : Type} (uuid : String) (r1 r2 r3 r4 r5 r6 : Nat) (d : α)
    (rest : List (ClientOutcome α)) :
    (∀ retryCount,
      get_chapter_with_retry uuid (ClientOutcome.anyhowErr :: rest) retryCount
        = (some (Except.error RetryErr.anyhow), [])) ∧
    get_chapter_with_retry uuid
        (([r1, r2, r3, r4, r5, r6].map ClientOutcome.otherErr : List (ClientOutcome α)) ++ rest) 0
      = (some (Except.error RetryErr.other),
          [r1, r2, r3, r4, r5, r6].map (fun rv => RetryLogItem.sleepMs (transientWaitMs rv))) ∧
    get_chapter_with_retry uuid
        (([r1, r2, r3, r4, r5].map ClientOutcome.otherErr : List (ClientOutcome α))
          ++ [ClientOutcome.ok d]) 0
      = (some (Except.ok d),
          [r1, r2, r3, r4, r5].map (fun rv => RetryLogItem.sleepMs (transientWaitMs rv))) ∧
    (∀ rv, 1000 ≤ transientWaitMs rv ∧ transientWaitMs rv < 5000) := by
  refine ⟨fun retryCount => rfl, rfl, rfl, fun rv => ?_⟩
  unfold transientWaitMs
  omega

/-- C7: `save_img` writes the source bytes verbatim when the detected
source format equals the configured target format; otherwise it decodes
the bytes and re-encodes them — to RGBA8 for a WebP target, to RGB8 for
a JPEG target — before writing; for any other target format it returns
an error and writes no file. -/
theorem c7_save_img (codec : ImgCodec) (savePath : String) (tf sf : ImageFormat)
    (data : List Nat) (fs : Files) :
    (tf = sf →
      save_img codec savePath tf sf data true fs = (Except.ok (), writeFile fs savePath data)) ∧
    (∀ img out, tf ≠ sf → tf = ImageFormat.WebP → codec.decode data = Except.ok img →
      codec.encodeWebP (codec.toRgba8 img) = Except.ok out →
      save_img codec savePath tf sf data true fs = (Except.ok (), writeFile fs savePath out)) ∧
    (∀ img out, tf ≠ sf → tf = ImageFormat.Jpeg → codec.decode data = Except.ok img →
      codec.encodeJpeg (codec.toRgb8 img) = Except.ok out →
      save_img codec savePath tf sf data true fs = (Except.ok (), writeFile fs savePath out)) ∧
    (∀ writeOk, tf ≠ sf → tf ≠ ImageFormat.WebP → tf ≠ ImageFormat.Jpeg →
      ∃ e, save_img codec savePath tf sf data writeOk fs = (Except.error e, fs)) := by
  refine ⟨fun h => by simp [save_img, h], ?_, ?_, ?_⟩
  · intro img out hne hw hdec henc
    subst hw
    simp [save_img, hne, hdec, henc]
  · intro img out hne hw hdec henc
    subst hw
    simp [save_img, hne, hdec, henc]
  · intro writeOk hne h1 h2
    cases hdec : codec.decode data with
    | error e => exact ⟨e, by simp [save_img, hne, hdec]⟩
    | ok img =>
      cases tf with
      | WebP => exact absurd rfl h1
      | Jpeg => exact absurd rfl h2
      | _ => exact ⟨"unsupported target format", by simp [save_img, hne, hdec]⟩

/-- C7 witness: a JPEG source saved under a JPEG target is written
verbatim. -/
theorem c7_save_img_witness :
    save_img trivialCodec "001.jpg" ImageFormat.Jpeg ImageFormat.Jpeg [7] true []
      = (Except.ok (), writeFile [] "001.jpg" [7]) :=
  (c7_save_img trivialCodec "001.jpg" ImageFormat.Jpeg ImageFormat.Jpeg [7] []).1 rfl

/-- C3 counterexample: with an empty registry and a comic that does not
contain the requested chapter, `create_download_task` returns an error
even though no entry for the chapter id — active or otherwise — exists,
so "returns an error if and only if the registry holds an active entry"
fails in the right-to-left direction. -/
theorem c3_counterexample :
    (create_download_task true [] (ComicStub.mk []) "c").ok = false ∧
    lookupTask [] "c" = none :=
  ⟨rfl, rfl⟩

/-- C3 (amended): `create_download_task` returns an error if and only
if the registry holds an active (`Pending`/`Downloading`/`Paused`)
entry for the chapter id or task construction fails (directory
resolution failure or chapter id absent from the comic); on success it
removes any existing terminal entry, stores a new `Pending` task under
the chapter id, and has started its driver; on failure no driver is
spawned. -/
theorem c3_create_task_amended (updateDirOk : Bool) (reg : Registry) (comic : ComicStub)
    (uuid : String) :
    ((create_download_task updateDirOk reg comic uuid).ok = false ↔
      (hasActiveEntry reg uuid = true ∨ (updateDirOk && comicHasChapter comic uuid) = false)) ∧
    ((create_download_task updateDirOk reg comic uuid).ok = true →
      create_download_task updateDirOk reg comic uuid =
        CreateOutcome.mk true (removeTask reg uuid ++ [(uuid, DownloadTaskState.Pending)]) true) ∧
    ((create_download_task updateDirOk reg comic uuid).ok = false →
      (create_download_task updateDirOk reg comic uuid).spawned = false) := by
  unfold create_download_task DownloadTask.new
  cases ha : hasActiveEntry reg uuid <;> cases hu : updateDirOk <;>
    cases hc : comicHasChapter comic uuid <;> simp [ha, hu, hc]

/-- C3 witness: a chapter id whose existing task is terminal
(`Completed`) is accepted — the terminal entry is replaced by a fresh
`Pending` task whose driver was spawned. -/
theorem c3_create_task_witness :
    create_download_task true [("a", DownloadTaskState.Completed)] comicA "a"
      = CreateOutcome.mk true [("a", DownloadTaskState.Pending)] true :=
  (c3_create_task_amended true [("a", DownloadTaskState.Completed)] comicA "a").2.1 (by decide)

/-- C9 counterexample: with a terminal (`Completed`) entry in the
registry and a comic not containing the chapter, `create_download_task`
fails — but the registry afterwards is empty, not unchanged: the code
removes the terminal entry before task construction fails. -/
theorem c9_counterexample :
    (create_download_task true [("c", DownloadTaskState.Completed)] (ComicStub.mk []) "c").reg
      = [] ∧
    (create_download_task true [("c", DownloadTaskState.Completed)] (ComicStub.mk []) "c").ok
      = false ∧
    comicHasChapter (ComicStub.mk []) "c" = false ∧
    ([] : Registry) ≠ [("c", DownloadTaskState.Completed)] := by
  refine ⟨rfl, rfl, rfl, by decide⟩

/-- C9 (amended): if the requested chapter id occurs in no group of the
comic, `create_download_task` returns an error and no driver is
spawned; no entry is inserted under the chapter id — but the registry
is not always unchanged: when it held no active entry, any existing
terminal entry for the id has been removed. -/
theorem c9_unknown_chapter (updateDirOk : Bool) (reg : Registry) (comic : ComicStub)
    (uuid : String) (h : comicHasChapter comic uuid = false) :
    (create_download_task updateDirOk reg comic uuid).ok = false ∧
    (create_download_task updateDirOk reg comic uuid).spawned = false ∧
    (hasActiveEntry reg uuid = true →
      (create_download_task updateDirOk reg comic uuid).reg = reg) ∧
    (hasActiveEntry reg uuid = false →
      (create_download_task updateDirOk reg comic uuid).reg = removeTask reg uuid) := by
  unfold create_download_task DownloadTask.new
  cases ha : hasActiveEntry reg uuid <;> cases hu : updateDirOk <;> simp [ha, hu, h]

/-- C9 witness: creating a task for a chapter id absent from the comic,
with a terminal entry in the registry, fails without a spawn and leaves
the registry with the terminal entry removed. -/
theorem c9_unknown_chapter_witness :
    (create_download_task true [("z", DownloadTaskState.Failed)] comicA "z").ok = false ∧
    (create_download_task true [("z", DownloadTaskState.Failed)] comicA "z").spawned = false ∧
    (hasActiveEntry [("z", DownloadTaskState.Failed)] "z" = true →
      (create_download_task true [("z", DownloadTaskState.Failed)] comicA "z").reg
        = [("z", DownloadTaskState.Failed)]) ∧
    (hasActiveEntry [("z", DownloadTaskState.Failed)] "z" = false →
      (create_download_task true [("z", DownloadTaskState.Failed)] comicA "z").reg
        = removeTask [("z", DownloadTaskState.Failed)] "z") :=
  c9_unknown_chapter true [("z", DownloadTaskState.Failed)] comicA "z" (by decide)

/-- C6: an image task targets the file named by the 1-based page index
zero-padded to 3 digits with the configured extension; if that file
already exists in the staging directory it only increments the
downloaded counter — no network fetch is issued; a fetch failure or a
save failure leaves the downloaded and byte counters unchanged, and in
all cases `download_img` returns an `ImgTaskState` (never an error), so
no failure propagates to the chapter task. -/
theorem c6_download_img (codec : ImgCodec) (cfgExt : String) (tf : ImageFormat)
    (env : ImgEnv) (index : Int) (st : ImgTaskState) :
    (∀ n : Nat, imgSavePath (n : Int) cfgExt = zeroPad 3 (Nat.repr (n + 1)) ++ "." ++ cfgExt) ∧
    (fileExists st.files (imgSavePath index cfgExt) = true →
      download_img codec cfgExt tf env index st = { st with downloaded := st.downloaded + 1 }) ∧
    (fileExists st.files (imgSavePath index cfgExt) = false →
      ∀ e, env.fetch = Except.error e →
        download_img codec cfgExt tf env index st = { st with fetchCount := st.fetchCount + 1 }) ∧
    (fileExists st.files (imgSavePath index cfgExt) = false →
      ∀ data sfmt e files', env.fetch = Except.ok (data, sfmt) →
        save_img codec (imgSavePath index cfgExt) tf sfmt data env.writeOk st.files
          = (Except.error e, files') →
        download_img codec cfgExt tf env index st
          = { st with fetchCount := st.fetchCount + 1, files := files' }) := by
  refine ⟨?_, ?_, ?_, ?_⟩
  · intro n
    have h1 : ¬((n : Int) + 1 < 0) := by omega
    have h2 : ((n : Int) + 1).toNat = n + 1 := by omega
    rw [imgSavePath, rustFormat03, if_neg h1, h2]
  · intro h
    simp [download_img, h]
  · intro h e hf
    simp [download_img, h, hf]
  · intro h data sfmt e files' hf hs
    simp [download_img, h, hf, hs]

/-- C6 witness: page index 0 targets `001.webp`; with that file already
staged, the task increments the counter to 1 and issues no fetch. -/
theorem c6_download_img_witness :
    imgSavePath ((0 : Nat) : Int) "webp" = zeroPad 3 (Nat.repr 1) ++ "." ++ "webp" ∧
    download_img trivialCodec "webp" ImageFormat.WebP (imgEnvAllOk 0) 0
        (ImgTaskState.mk [("001.webp", [1])] 0 0 0)
      = ImgTaskState.mk [("001.webp", [1])] 1 0 0 :=
  ⟨(c6_download_img trivialCodec "webp" ImageFormat.WebP (imgEnvAllOk 0) 0
      (ImgTaskState.mk [("001.webp", [1])] 0 0 0)).1 0,
   (c6_download_img trivialCodec "webp" ImageFormat.WebP (imgEnvAllOk 0) 0
      (ImgTaskState.mk [("001.webp", [1])] 0 0 0)).2.1 (by decide)⟩

/-- C1: when the page list resolved and the staging directory was
created, but after all image tasks finish the downloaded count differs
from the total count, the chapter task ends `Failed` and the staging
directory is never renamed onto the final path — the final chapter
directory is exactly what it was before the task ran. -/
theorem c1_incomplete_not_committed (env : ChapterEnv) (st : ChapterState)
    (ps : List (String × Int))
    (hm : env.saveComicMetaOk = true) (hp : env.pairs = Except.ok ps)
    (ht : env.tempDirOk = true)
    (hc : (imgPhase env ps { st with total := st.total + ps.length }).downloaded
          ≠ st.total + ps.length) :
    (download_chapter env st).state = DownloadTaskState.Failed ∧
    (download_chapter env st).fs.finalDir = st.fs.finalDir := by
  simp only [download_chapter, hm, hp, ht, if_true, imgPhase_total]
  rw [if_pos (by simpa using hc)]
  exact ⟨rfl, imgPhase_finalDir env ps { st with total := st.total + ps.length }⟩

/-- C1 witness: a one-page chapter whose single image fetch fails ends
`Failed` with the (absent) final directory untouched. -/
theorem c1_incomplete_not_committed_witness :
    (download_chapter envOneFailingImg stZero).state = DownloadTaskState.Failed ∧
    (download_chapter envOneFailingImg stZero).fs.finalDir = none :=
  c1_incomplete_not_committed envOneFailingImg stZero [("u", 0)] rfl rfl rfl (by decide)

/-- C2: when the completeness check passes (counts equal) and the
chapter's final path is known, a successful remove-if-exists plus
rename commits the staged files as the final directory (the staging
directory is gone afterwards) and the task reaches `Completed` — also
when the subsequent chapter-metadata save fails, that failure being
only logged; a rename failure instead ends the task `Failed`. -/
theorem c2_commit_protocol (env : ChapterEnv) (st : ChapterState)
    (ps : List (String × Int))
    (hm : env.saveComicMetaOk = true) (hp : env.pairs = Except.ok ps)
    (ht : env.tempDirOk = true) (hd : env.hasChapterDir = true)
    (heq : (imgPhase env ps { st with total := st.total + ps.length }).downloaded
           = st.total + ps.length) :
    (env.removeOk = true → env.renameOk = true →
      (download_chapter env st).state = DownloadTaskState.Completed ∧
      (download_chapter env st).fs.finalDir
        = (imgPhase env ps { st with total := st.total + ps.length }).fs.tempDir ∧
      (download_chapter env st).fs.tempDir = none ∧
      (download_chapter { env with saveChapterMetaOk := false } st).state
        = DownloadTaskState.Completed) ∧
    (env.renameOk = false → (download_chapter env st).state = DownloadTaskState.Failed) := by
  have hnot : ¬ (imgPhase env ps { st with total := st.total + ps.length }).downloaded
      ≠ st.total + ps.length := by simpa using heq
  constructor
  · intro hrm hrn
    rw [download_chapter_meta_irrelevant env st false]
    simp only [download_chapter, hm, hp, ht, if_true, imgPhase_total]
    rw [if_neg (by simpa using hnot)]
    rw [show (imgPhase env ps { st with total := st.total + ps.length }).fs
        = ChapterFS.mk st.fs.finalDir
            (imgPhase env ps { st with total := st.total + ps.length }).fs.tempDir from rfl]
    cases hfd : st.fs.finalDir with
    | none => simp [rename_temp_download_dir, hd, hrm, hrn]
    | some l => simp [rename_temp_download_dir, hd, hrm, hrn]
  · intro hrn
    simp only [download_chapter, hm, hp, ht, if_true, imgPhase_total]
    rw [if_neg (by simpa using hnot)]
    rw [show (imgPhase env ps { st with total := st.total + ps.length }).fs
        = ChapterFS.mk st.fs.finalDir
            (imgPhase env ps { st with total := st.total + ps.length }).fs.tempDir from rfl]
    cases hfd : st.fs.finalDir with
    | none => simp [rename_temp_download_dir, hd, hrn, failChapter]
    | some l =>
      cases hrm : env.removeOk with
      | false => simp [rename_temp_download_dir, hd, hrm, failChapter]
      | true => simp [rename_temp_download_dir, hd, hrm, hrn, failChapter]

/-- C2 witness: a one-page chapter whose image downloads successfully
is committed — the final directory holds the staged file, the staging
directory is gone, and the task is `Completed` even if the
chapter-metadata save fails. -/
theorem c2_commit_protocol_witness :
    (download_chapter envOneOkImg stZero).state = DownloadTaskState.Completed ∧
    (download_chapter envOneOkImg stZero).fs.finalDir
      = (imgPhase envOneOkImg [("u", 0)] { stZero with total := stZero.total + 1 }).fs.tempDir ∧
    (download_chapter envOneOkImg stZero).fs.tempDir = none ∧
    (download_chapter { envOneOkImg with saveChapterMetaOk := false } stZero).state
      = DownloadTaskState.Completed :=
  (c2_commit_protocol envOneOkImg stZero [("u", 0)] rfl rfl rfl rfl (by decide)).1 rfl rfl

theorem download_img_downloaded_le (codec : ImgCodec) (cfgExt : String) (tf : ImageFormat)
    (env : ImgEnv) (index : Int) (st : ImgTaskState) :
    (download_img codec cfgExt tf env index st).downloaded ≤ st.downloaded + 1 := by
  cases h : fileExists st.files (imgSavePath index cfgExt) with
  | true => simp [download_img, h]
  | false =>
    cases hf : env.fetch with
    | error e => simp [download_img, h, hf]
    | ok p =>
      rcases p with ⟨data, sfmt⟩
      rcases hs : save_img codec (imgSavePath index cfgExt) tf sfmt data env.writeOk st.files
        with ⟨r, files'⟩
      cases r with
      | error e => simp [download_img, h, hf, hs]
      | ok u => simp [download_img, h, hf, hs]

theorem runImgTasks_downloaded_le (codec : ImgCodec) (cfgExt : String) (tf : ImageFormat)
    (imgEnvF : Nat → ImgEnv) :
    ∀ (ps : List (String × Int)) (k : Nat) (st : ImgTaskState),
      (runImgTasks codec cfgExt tf imgEnvF ps k st).downloaded ≤ st.downloaded + ps.length := by
  intro ps
  induction ps with
  | nil => intro k st; simp [runImgTasks]
  | cons p rest ih =>
    intro k st
    have h1 := download_img_downloaded_le codec cfgExt tf (imgEnvF k) p.2 st
    have h2 := ih (k + 1) (download_img codec cfgExt tf (imgEnvF k) p.2 st)
    simp only [runImgTasks, List.length_cons]
    omega

theorem imgPhase_downloaded_le (env : ChapterEnv) (ps : List (String × Int))
    (st : ChapterState) (h : st.downloaded = 0) :
    (imgPhase env ps st).downloaded ≤ ps.length := by
  have hb := runImgTasks_downloaded_le env.codec env.cfgExt env.targetFormat env.imgEnv ps 0
    (ImgTaskState.mk (clean_temp_download_dir env.cfgExt (st.fs.tempDir.getD [])) st.downloaded 0 0)
  simp only [imgPhase]
  simp at hb
  omega

/-- C8 counterexample: a chapter whose resolved page list is empty runs
to `Completed` with `total_img_count = 0` — the code never establishes
`total_img_count > 0`, so "a task reaches Completed only when ... and
total_img_count > 0 was established" fails on the code. -/
theorem c8_counterexample :
    (download_chapter envNoPages stZero).state = DownloadTaskState.Completed ∧
    (download_chapter envNoPages stZero).total = 0 :=
  ⟨rfl, rfl⟩

/-- C8 (amended): in every reachable state of a chapter task the
downloaded counter is at most the total counter — starting from zero,
after any prefix of the image tasks the downloaded count is bounded by
the page count, and the final state of `download_chapter` keeps the
bound, the total having been set to the page-list length (possibly
zero) before any image task ran; and a task that reaches `Completed`
has its two counters equal. -/
theorem c8_invariant_amended :
    (∀ (codec : ImgCodec) (cfgExt : String) (tf : ImageFormat) (imgEnvF : Nat → ImgEnv)
        (ps : List (String × Int)) (k k' : Nat) (st : ImgTaskState),
      st.downloaded = 0 →
      (runImgTasks codec cfgExt tf imgEnvF (ps.take k') k st).downloaded ≤ ps.length) ∧
    (∀ (env : ChapterEnv) (st : ChapterState),
      (download_chapter env st).state = DownloadTaskState.Completed →
      (download_chapter env st).downloaded = (download_chapter env st).total) ∧
    (∀ (env : ChapterEnv) (st : ChapterState) (ps : List (String × Int)),
      env.saveComicMetaOk = true → env.pairs = Except.ok ps →
      st.downloaded = 0 → st.total = 0 →
      (download_chapter env st).downloaded ≤ (download_chapter env st).total ∧
      (download_chapter env st).total = ps.length) := by
  refine ⟨?_, ?_, ?_⟩
  · intro codec cfgExt tf imgEnvF ps k k' st h
    have hb := runImgTasks_downloaded_le codec cfgExt tf imgEnvF (ps.take k') k st
    have hl : (ps.take k').length ≤ ps.length := by
      simp [List.length_take]
    omega
  · intro env st h
    cases hm : env.saveComicMetaOk with
    | false => simp [download_chapter, hm, failChapter] at h
    | true =>
      cases hp : env.pairs with
      | error e => simp [download_chapter, hm, hp, failChapter] at h
      | ok ps =>
        cases ht : env.tempDirOk with
        | false => simp [download_chapter, hm, hp, ht, failChapter] at h
        | true =>
          by_cases hc : (imgPhase env ps { st with total := st.total + ps.length }).downloaded
              = st.total + ps.length
          · rcases hr : rename_temp_download_dir env.hasChapterDir env.removeOk env.renameOk
                (imgPhase env ps { st with total := st.total + ps.length }).fs with ⟨res, fs'⟩
            cases res with
            | error e =>
              simp [download_chapter, hm, hp, ht, imgPhase_total, hc, hr, failChapter] at h
            | ok u =>
              simp [download_chapter, hm, hp, ht, imgPhase_total, hc, hr]
          · simp [download_chapter, hm, hp, ht, imgPhase_total, hc, failChapter] at h
  · intro env st ps hm hp h0 ht0
    have hle : (imgPhase env ps { st with total := st.total + ps.length }).downloaded
        ≤ ps.length :=
      imgPhase_downloaded_le env ps { st with total := st.total + ps.length } (by simp [h0])
    cases ht : env.tempDirOk with
    | false =>
      simp [download_chapter, hm, hp, ht, failChapter]
      omega
    | true =>
      by_cases hc : (imgPhase env ps { st with total := st.total + ps.length }).downloaded
          = st.total + ps.length
      · rcases hr : rename_temp_download_dir env.hasChapterDir env.removeOk env.renameOk
            (imgPhase env ps { st with total := st.total + ps.length }).fs with ⟨res, fs'⟩
        cases res with
        | error e =>
          simp [download_chapter, hm, hp, ht, imgPhase_total, hc, hr, failChapter]
          omega
        | ok u =>
          simp [download_chapter, hm, hp, ht, imgPhase_total, hc, hr]
          omega
      · simp [download_chapter, hm, hp, ht, imgPhase_total, hc, failChapter]
        constructor
        · omega
        · omega

/-- C8 witness: the one-page successful chapter keeps the bound and
sets the total to the page-list length. -/
theorem c8_invariant_amended_witness :
    (download_chapter envOneOkImg stZero).downloaded
      ≤ (download_chapter envOneOkImg stZero).total ∧
    (download_chapter envOneOkImg stZero).total = 1 :=
  c8_invariant_amended.2.2 envOneOkImg stZero [("u", 0)] rfl rfl rfl rfl

theorem filterChar_not_banned (c : Char) : filterChar c ∉ bannedChars := by
  unfold filterChar
  split_ifs with h1 h2 h3 h4 h5 h6 h7 h8 h9
  · decide
  · decide
  · decide
  · decide
  · decide
  · decide
  · decide
  · decide
  · decide
  · simp only [bannedChars, List.mem_cons, List.not_mem_nil, or_false]
    push_neg
    exact ⟨h1, h2, h3, h4, h5, h6, h7, h8, h9⟩

theorem mem_of_mem_dropWhile_char {p : Char → Bool} :
    ∀ {l : List Char} {c : Char}, c ∈ l.dropWhile p → c ∈ l := by
  intro l
  induction l with
  | nil => intro c h; simp [List.dropWhile] at h
  | cons x xs ih =>
    intro c h
    rw [List.dropWhile_cons] at h
    by_cases hx : p x = true
    · rw [if_pos hx] at h
      exact List.mem_cons_of_mem x (ih h)
    · rw [if_neg hx] at h
      exact h

theorem mem_rustTrim {c : Char} {cs : List Char} (h : c ∈ rustTrim cs) : c ∈ cs := by
  unfold rustTrim at h
  rw [List.mem_reverse] at h
  have h2 := mem_of_mem_dropWhile_char h
  rw [List.mem_reverse] at h2
  exact mem_of_mem_dropWhile_char h2

theorem head_dropWhile_false (p : Char → Bool) :
    ∀ (l : List Char) (c : Char), (l.dropWhile p).head? = some c → p c = false := by
  intro l
  induction l with
  | nil => intro c h; simp [List.dropWhile] at h
  | cons x xs ih =>
    intro c h
    rw [List.dropWhile_cons] at h
    cases hpx : p x with
    | true =>
      rw [if_pos (by rw [hpx])] at h
      exact ih c h
    | false =>
      rw [if_neg (by rw [hpx]; exact Bool.false_ne_true)] at h
      simp only [List.head?_cons, Option.some.injEq] at h
      rw [← h]
      exact hpx

theorem getLast?_dropWhile_char (p : Char → Bool) :
    ∀ (l : List Char) (c : Char), (l.dropWhile p).getLast? = some c → l.getLast? = some c := by
  intro l
  induction l with
  | nil => intro c h; simp [List.dropWhile] at h
  | cons x xs ih =>
    intro c h
    rw [List.dropWhile_cons] at h
    cases hpx : p x with
    | false =>
      rw [if_neg (by rw [hpx]; exact Bool.false_ne_true)] at h
      exact h
    | true =>
      rw [if_pos (by rw [hpx])] at h
      have h2 := ih c h
      cases xs with
      | nil => simp at h2
      | cons y ys => rw [List.getLast?_cons_cons]; exact h2

theorem rustTrim_head (cs : List Char) (c : Char) (h : (rustTrim cs).head? = some c) :
    c.isWhitespace = false := by
  unfold rustTrim at h
  rw [List.head?_reverse] at h
  have h2 := getLast?_dropWhile_char Char.isWhitespace
    ((cs.dropWhile Char.isWhitespace).reverse) c h
  rw [List.getLast?_reverse] at h2
  exact head_dropWhile_false Char.isWhitespace cs c h2

theorem rustTrim_getLast (cs : List Char) (c : Char) (h : (rustTrim cs).getLast? = some c) :
    c.isWhitespace = false := by
  unfold rustTrim at h
  rw [List.getLast?_reverse] at h
  exact head_dropWhile_false Char.isWhitespace _ c h

theorem format_dir_names_filtered (fmtFn : String → Except String String) :
    ∀ (ps l : List String), format_dir_names fmtFn ps = Except.ok l →
      ∀ d ∈ l, d ≠ "" ∧ ∃ s, d = filename_filter s := by
  intro ps
  induction ps with
  | nil =>
    intro l h d hd
    simp only [format_dir_names, Except.ok.injEq] at h
    rw [← h] at hd
    simp at hd
  | cons p rest ih =>
    intro l h d hd
    unfold format_dir_names at h
    cases hf : fmtFn p with
    | error e => rw [hf] at h; simp at h
    | ok s =>
      rw [hf] at h
      cases hrest : format_dir_names fmtFn rest with
      | error e => rw [hrest] at h; simp at h
      | ok l2 =>
        rw [hrest] at h
        by_cases hemp : filename_filter s = ""
        · simp only [hemp, if_pos, Except.ok.injEq] at h
          rw [← h] at hd
          exact ih l2 hrest d hd
        · simp only [if_neg hemp, Except.ok.injEq] at h
          rw [← h] at hd
          rcases List.mem_cons.mp hd with h1 | h2
          · exact ⟨by rw [h1]; exact hemp, ⟨s, h1⟩⟩
          · exact ih l2 hrest d h2

/-- C10: every string through `filename_filter` loses all of the
characters `\ / : * ? " < > |` (each replaced by a substitute) and
carries no leading or trailing whitespace; and both download-directory
builders append to their base path only segments that passed through
`filename_filter` and are nonempty — empty segments are dropped. -/
theorem c10_filename_filter_dirs :
    (∀ (s : String),
      (∀ c ∈ (filename_filter s).data, c ∉ bannedChars) ∧
      (∀ c, (filename_filter s).data.head? = some c → c.isWhitespace = false) ∧
      (∀ c, (filename_filter s).data.getLast? = some c → c.isWhitespace = false)) ∧
    (∀ (downloadDir : List String) (comicDirFmt : String)
        (fmtFn : String → Except String String) (dirs : List String),
      get_comic_download_dir_by_fmt downloadDir comicDirFmt fmtFn = Except.ok dirs →
      dirs.take downloadDir.length = downloadDir ∧
      ∀ seg ∈ dirs.drop downloadDir.length, seg ≠ "" ∧ ∃ s, seg = filename_filter s) ∧
    (∀ (comicDir : List String) (chapterDirFmt : String)
        (fmtFn : String → Except String String) (dirs : List String),
      get_chapter_download_dir_by_fmt comicDir chapterDirFmt fmtFn = Except.ok dirs →
      dirs.take comicDir.length = comicDir ∧
      ∀ seg ∈ dirs.drop comicDir.length, seg ≠ "" ∧ ∃ s, seg = filename_filter s) := by
  refine ⟨?_, ?_, ?_⟩
  · intro s
    refine ⟨?_, ?_, ?_⟩
    · intro c hc
      have h2 := mem_rustTrim hc
      rcases List.mem_map.mp h2 with ⟨c0, _, hc0⟩
      rw [← hc0]
      exact filterChar_not_banned c0
    · intro c hc
      exact rustTrim_head _ c hc
    · intro c hc
      exact rustTrim_getLast _ c hc
  · intro dd fmt fmtFn dirs h
    unfold get_comic_download_dir_by_fmt at h
    cases hf : format_dir_names fmtFn ((splitOnChar '/' fmt.data).map String.mk) with
    | error e => rw [hf] at h; simp at h
    | ok names =>
      rw [hf] at h
      simp only [Except.ok.injEq] at h
      rw [← h]
      refine ⟨List.take_left dd names, ?_⟩
      intro seg hseg
      rw [List.drop_left] at hseg
      exact format_dir_names_filtered fmtFn _ names hf seg hseg
  · intro dd fmt fmtFn dirs h
    unfold get_chapter_download_dir_by_fmt at h
    cases hf : format_dir_names fmtFn ((splitOnChar '/' fmt.data).map String.mk) with
    | error e => rw [hf] at h; simp at h
    | ok names =>
      rw [hf] at h
      simp only [Except.ok.injEq] at h
      rw [← h]
      refine ⟨List.take_left dd names, ?_⟩
      intro seg hseg
      rw [List.drop_left] at hseg
      exact format_dir_names_filtered fmtFn _ names hf seg hseg

/-- C10 witness: building the comic directory from the two-segment
template produces the base directory followed by nonempty filtered
segments. -/
theorem c10_filename_filter_dirs_witness :
    ["D", "a", "b"].take ((["D"] : List String).length) = ["D"] ∧
    (∀ seg ∈ ["D", "a", "b"].drop ((["D"] : List String).length),
      seg ≠ "" ∧ ∃ s, seg = filename_filter s) :=
  c10_filename_filter_dirs.2.1 ["D"] "a/b" idFmtFn ["D", "a", "b"] rfl

end CopyManga
